import Mathlib

/-!
# Verification of the pm1 control model

A shallow embedding of the pm1 chassis control library: the chassis
kinematic model (`ChassisModel` with its conversions among the `Physical`,
`Velocity` and `Wheels` control spaces), the speed `Optimizer`, the
`StatusPredictor` stepping loop, and the `Odometry` integrator.

IEEE binary32 values are idealised as exact reals extended with a `nan`
sentinel (`F`): the library uses `NaN` in the `rudder` field as the
*Released* marker, and the NaN-aware comparison semantics of `f32`
(`partial_cmp` returning `None`, `f32::max` ignoring a NaN operand) are
modelled explicitly.  All other arithmetic is exact real arithmetic.
-/

noncomputable section

namespace PM1

open Real

/-- An `f32` value: either `NaN` or an exact real.  (Infinities are not
modelled; no claim exercises them.) -/
inductive F where
  | nan : F
  | val : ℝ → F

namespace F

/-- Subtraction; NaN propagates. -/
def sub : F → F → F
  | val a, val b => val (a - b)
  | _, _ => nan

/-- Addition; NaN propagates. -/
def add : F → F → F
  | val a, val b => val (a + b)
  | _, _ => nan

/-- `f32::abs`; NaN propagates. -/
def abs : F → F
  | val a => val |a|
  | nan => nan

/-- Division; NaN propagates.  (A finite value divided by zero is given the
Lean junk value `0` rather than an infinity; no claim depends on it.) -/
def div : F → F → F
  | val a, val b => val (a / b)
  | _, _ => nan

/-- `f32::max`: ignores a NaN operand. -/
def max : F → F → F
  | nan, b => b
  | val a, nan => val a
  | val a, val b => val (Max.max a b)

/-- `f32::min`: ignores a NaN operand. -/
def min : F → F → F
  | nan, b => b
  | val a, nan => val a
  | val a, val b => val (Min.min a b)

/-- `PartialOrd::partial_cmp` on `f32`: `none` iff an operand is NaN. -/
def pcmp : F → F → Option Ordering
  | val a, val b =>
      some (if a < b then Ordering.lt else if b < a then Ordering.gt else Ordering.eq)
  | _, _ => none

/-- `f32::is_nan`. -/
def isNan : F → Prop
  | nan => True
  | val _ => False

instance : ∀ x : F, Decidable x.isNan
  | nan => .isTrue trivial
  | val _ => .isFalse not_false

/-- IEEE equality (`==` on `f32`): NaN is equal to nothing. -/
def feq : F → F → Prop
  | val a, val b => a = b
  | _, _ => False

instance : ∀ x y : F, Decidable (feq x y)
  | val a, val b => (inferInstance : Decidable (a = b))
  | nan, nan => .isFalse not_false
  | nan, val _ => .isFalse not_false
  | val _, nan => .isFalse not_false

/-- Read back the real value; `nan` is given the junk value `0`.  Used only
where the value is provably not `nan`. -/
def toReal : F → ℝ
  | nan => 0
  | val a => a

end F

/-- `Physical`: the Ackermann-style command.  `speed` is the ground speed of
the fastest wheel (never NaN in the library), `rudder` the rear steering
angle, with NaN as the *Released* sentinel.

Modelled from the spec: the `Physical` struct itself (its two fields, the
`RELEASED` and `ZERO` constants, `is_static`, `is_released` and its derived
field-wise `PartialEq`) is declared in a crate module not present in the
sources; the spec pins `Released = (speed 0, rudder NaN)`,
`Zero = (speed 0, rudder 0)`, `is_static ⇔ speed == 0` and
`is_released ⇔ rudder is NaN`. -/
structure Physical where
  speed : ℝ
  rudder : F

/-- Modelled from the spec: `Released`, speed 0 and rudder NaN. -/
def Physical.RELEASED : Physical := ⟨0, F.nan⟩

/-- Modelled from the spec: `Zero`, speed 0 and rudder 0. -/
def Physical.ZERO : Physical := ⟨0, F.val 0⟩

/-- Modelled from the spec: `is_released ⇔ rudder is NaN`. -/
def Physical.is_released (p : Physical) : Prop := p.rudder.isNan

/-- Modelled from the spec: `is_static ⇔ speed == 0`. -/
def Physical.is_static (p : Physical) : Prop := p.speed = 0

/-- Modelled from the spec: the derived `PartialEq` on `Physical`,
field-wise with IEEE semantics on the `rudder` field (NaN equals nothing,
so `RELEASED == RELEASED` is false). -/
def Physical.req (p q : Physical) : Prop := p.speed = q.speed ∧ F.feq p.rudder q.rudder

instance (p : Physical) : Decidable p.is_released := by
  unfold Physical.is_released; infer_instance

instance (p : Physical) : Decidable p.is_static := by
  unfold Physical.is_static; infer_instance

instance (p q : Physical) : Decidable (Physical.req p q) := by
  unfold Physical.req; infer_instance

/-- `Velocity`: body-frame twist, linear speed `v` and angular speed `w`.
Both are real-valued in every reachable state. -/
structure Velocity where
  v : ℝ
  w : ℝ

/-- `Wheels`: angular velocities of the two drive wheels. -/
structure Wheels where
  left : ℝ
  right : ℝ

/-- `ChassisModel`: chassis geometry plus the cached critical rudder angle. -/
structure ChassisModel where
  width : ℝ
  length : ℝ
  wheel : ℝ
  critical_rudder : ℝ

/-- `f32::atan2(y, x)` (four-quadrant arctangent). -/
def atan2 (y x : ℝ) : ℝ :=
  if 0 < x then arctan (y / x)
  else if x < 0 then
    (if 0 ≤ y then arctan (y / x) + π else arctan (y / x) - π)
  else
    (if 0 < y then π / 2 else if y < 0 then -(π / 2) else 0)

/-- `f32::signum`: `1` for non-negatives (including `+0.0`), `-1` for
negatives. -/
def fsignum (x : ℝ) : ℝ := if x < 0 then -1 else 1

/-- `ChassisModel::new`. -/
def ChassisModel.new (width length wheel : ℝ) : ChassisModel :=
  { width := width
    length := length
    wheel := wheel
    critical_rudder := atan2 (length * length / width - width / 2) length }

/-- `ChassisModel::physical_to_velocity` (src/model.rs). -/
def ChassisModel.physical_to_velocity (m : ChassisModel) (physical : Physical) :
    Velocity :=
  match physical.rudder with
  | F.nan => { v := 0, w := 0 }
  | F.val rudder =>
    if rudder = 0 then
      { v := physical.speed, w := 0 }
    else
      let r_chassis := -m.length / tan rudder
      let w :=
        if m.critical_rudder < |rudder| then
          let r_rudder := -m.length / sin rudder
          physical.speed / r_rudder
        else if 0 < rudder then
          physical.speed / (r_chassis - m.width / 2)
        else
          physical.speed / (r_chassis + m.width / 2)
      { v := w * r_chassis, w := w }

/-- `ChassisModel::velocity_to_physical` (src/model.rs). -/
def ChassisModel.velocity_to_physical (m : ChassisModel) (velocity : Velocity) :
    Physical :=
  if velocity.w = 0 then
    if velocity.v = 0 then Physical.RELEASED
    else { speed := velocity.v, rudder := F.val 0 }
  else
    let r_chassis := velocity.v / velocity.w
    let rudder := atan2 (fsignum r_chassis * -m.length) |r_chassis|
    let speed := velocity.w *
      (if m.critical_rudder < |rudder| then -m.length / sin rudder
       else if 0 < rudder then r_chassis - m.width / 2
       else r_chassis + m.width / 2)
    { speed := speed, rudder := F.val rudder }

/-- `ChassisModel::wheels_to_velocity`. -/
def ChassisModel.wheels_to_velocity (m : ChassisModel) (wheels : Wheels) : Velocity :=
  { v := (wheels.right + wheels.left) * m.wheel / 2
    w := (wheels.right - wheels.left) * m.wheel / m.width }

/-- `ChassisModel::velocity_to_wheels`. -/
def ChassisModel.velocity_to_wheels (m : ChassisModel) (velocity : Velocity) : Wheels :=
  { left := (velocity.v - m.width / 2 * velocity.w) / m.wheel
    right := (velocity.v + m.width / 2 * velocity.w) / m.wheel }

/-- `ChassisModel::physical_to_wheels`. -/
def ChassisModel.physical_to_wheels (m : ChassisModel) (physical : Physical) : Wheels :=
  m.velocity_to_wheels (m.physical_to_velocity physical)

/-- `ChassisModel::wheels_to_physical`. -/
def ChassisModel.wheels_to_physical (m : ChassisModel) (wheels : Wheels) : Physical :=
  m.velocity_to_physical (m.wheels_to_velocity wheels)

/-- `Optimizer` (src/optimizer.rs). -/
structure Optimizer where
  angular_attenuation : ℝ
  speed_step : ℝ

/-- `Optimizer::new`: `speed_step = acceleration * period`. -/
def Optimizer.new (angular_attenuation acceleration period : ℝ) : Optimizer :=
  { angular_attenuation := angular_attenuation
    speed_step := acceleration * period }

/-- `step_limited` (src/optimizer.rs): approach `target` from `current` by at
most `step`, with `f32` comparison semantics. -/
def step_limited (current step target : F) : F :=
  match F.pcmp target current with
  | none => current
  | some Ordering.eq => current
  | some Ordering.lt => F.max (F.sub current step) target
  | some Ordering.gt => F.min (F.add current step) target

/-- `Optimizer::optimize_speed` (src/optimizer.rs).  The speeds are
real-valued; the rudder arithmetic (which can meet the NaN sentinel) is
carried out in `F`, and `f32::max(0.0, e)` maps a NaN `e` to `0`. -/
def Optimizer.optimize_speed (o : Optimizer) (target current : Physical) : ℝ :=
  let speed :=
    match target.rudder with
    | F.nan => target.speed
    | F.val tr =>
      let width := current.speed * (π / 3) + π / 6
      let diff := (F.sub (F.val tr) current.rudder).abs
      target.speed *
        ((F.max (F.val 0) (F.sub (F.val 1) (F.div diff (F.val width)))).toReal *
          ((1 - |tr| / (π / 2)) * (1 - o.angular_attenuation) + o.angular_attenuation))
  (step_limited (F.val current.speed) (F.val o.speed_step) (F.val speed)).toReal

/-- `StatusPredictor` (src/predict.rs). -/
structure StatusPredictor where
  rudder_step : ℝ
  optimizer : Optimizer
  current : Physical
  target : Physical

/-- `StatusPredictor::new`. -/
def StatusPredictor.new (optimizer : Optimizer) (period : ℝ) : StatusPredictor :=
  { rudder_step := period
    optimizer := optimizer
    current := Physical.ZERO
    target := Physical.RELEASED }

/-- `<StatusPredictor as Iterator>::next` (src/predict.rs): returns the
emitted `Physical` and the successor predictor state, or `none` on
termination. -/
def StatusPredictor.next (s : StatusPredictor) : Option (Physical × StatusPredictor) :=
  if s.target.is_released ∧ s.current.is_static then
    none
  else
    let current :=
      if ¬ Physical.req s.current s.target then
        { speed := s.optimizer.optimize_speed s.target s.current
          rudder := step_limited s.current.rudder (F.val s.rudder_step) s.target.rudder }
      else s.current
    some (current, { s with current := current })

/-- Iterate `StatusPredictor.next` discarding the emitted values: the
predictor state after `n` calls, or `none` once a call has returned `none`. -/
def StatusPredictor.advance : ℕ → StatusPredictor → Option StatusPredictor
  | 0, s => some s
  | n + 1, s =>
    match s.next with
    | none => none
    | some (_, s1) => StatusPredictor.advance n s1

/-- A planar rigid transform, as nalgebra's `Isometry2<f32>`: a translation
vector and a rotation unit complex, both embedded in `ℂ`. -/
structure Iso2 where
  t : ℂ
  r : ℂ

/-- `Isometry2::new(translation, angle)`. -/
def Iso2.new (t : ℂ) (angle : ℝ) : Iso2 :=
  { t := t, r := ⟨Real.cos angle, Real.sin angle⟩ }

/-- The SE(2) product (`Isometry2` multiplication): rotate-then-translate
composition. -/
def Iso2.mul (a b : Iso2) : Iso2 :=
  { t := a.t + a.r * b.t, r := a.r * b.r }

/-- The identity transform. -/
def Iso2.id : Iso2 := { t := 0, r := 1 }

/-- `Odometry` (src/odometry.rs): cumulative distance `s`, cumulative
rotation `a`, and the pose. -/
structure Odometry where
  s : ℝ
  a : ℝ
  pose : Iso2

/-- `Odometry::ZERO`. -/
def Odometry.ZERO : Odometry := { s := 0, a := 0, pose := Iso2.id }

/-- `f32::EPSILON` (2⁻²³). -/
def f32_EPSILON : ℝ := 1 / 2 ^ 23

/-- `impl From<Velocity> for Odometry` (src/odometry.rs): the caller has
already integrated the twist, so `v` is a distance and `w` an angle. -/
def Odometry.from_velocity (vel : Velocity) : Odometry :=
  let s := vel.v
  let theta := vel.w
  let a := |theta|
  { s := |s|
    a := a
    pose :=
      Iso2.new
        (if a < f32_EPSILON then ⟨s, 0⟩
         else (⟨Real.sin theta, 1 - Real.cos theta⟩ : ℂ) * ((s / theta : ℝ) : ℂ))
        theta }

/-- `impl AddAssign for Odometry` (and `Add`, which clones then `+=`):
add the scalars, compose the poses. -/
def Odometry.add (a b : Odometry) : Odometry :=
  { s := a.s + b.s, a := a.a + b.a, pose := a.pose.mul b.pose }

/-! ## Helper lemmas -/

/-- Computation rule for `F.pcmp` on non-NaN arguments. -/
lemma F.pcmp_val (a b : ℝ) :
    F.pcmp (F.val a) (F.val b) =
      some (if a < b then Ordering.lt else if b < a then Ordering.gt else Ordering.eq) :=
  rfl

/-- Characterisation of `step_limited` on non-NaN arguments. -/
lemma step_limited_val (c d t : ℝ) :
    step_limited (F.val c) (F.val d) (F.val t) =
      if t < c then F.val (Max.max (c - d) t)
      else if c < t then F.val (Min.min (c + d) t)
      else F.val c := by
  unfold step_limited
  rw [F.pcmp_val]
  split_ifs with h1 h2 <;> rfl

/-- On non-NaN values `step_limited` moves from `current` by at most a
non-negative `step`. -/
lemma step_limited_val_bound (c d t : ℝ) (hd : 0 ≤ d) :
    |(step_limited (F.val c) (F.val d) (F.val t)).toReal - c| ≤ d := by
  rw [step_limited_val]
  rcases lt_trichotomy t c with h | h | h
  · rw [if_pos h]
    simp only [F.toReal]
    rw [abs_le]
    constructor
    · have := le_max_left (c - d) t; linarith
    · have h1 : c - d ≤ c := by linarith
      have h2 : t ≤ c := h.le
      have := max_le h1 h2; linarith
  · subst h
    rw [if_neg (lt_irrefl t), if_neg (lt_irrefl t)]
    simpa [F.toReal] using hd
  · rw [if_neg (not_lt.mpr h.le), if_pos h]
    simp only [F.toReal]
    rw [abs_le]
    constructor
    · have h1 : c ≤ c + d := by linarith
      have h2 : c ≤ t := h.le
      have := le_min h1 h2; linarith
    · have := min_le_left (c + d) t; linarith

/-- On non-NaN values `step_limited` toward `0` shrinks the magnitude to at
most `max (|current| - step) 0`. -/
lemma step_limited_to_zero (c d : ℝ) :
    |(step_limited (F.val c) (F.val d) (F.val 0)).toReal| ≤ max (|c| - d) 0 := by
  rw [step_limited_val]
  rcases lt_trichotomy (0 : ℝ) c with h | h | h
  · rw [if_pos h]
    simp only [F.toReal]
    rw [abs_of_nonneg (le_max_right (c - d) 0), abs_of_pos h]
  · rw [if_neg (by linarith), if_neg (by linarith)]
    simp only [F.toReal, ← h, abs_zero]
    exact le_max_right _ _
  · rw [if_neg (not_lt.mpr h.le), if_pos h]
    simp only [F.toReal]
    rw [abs_of_nonpos (min_le_right (c + d) 0), abs_of_neg h]
    have hmm : -Min.min (c + d) 0 = Max.max (-(c + d)) 0 := by
      rw [← max_neg_neg, neg_zero]
    rw [hmm]
    have hh : -(c + d) = -c - d := by ring
    rw [hh]

/-- `F.pcmp` is `none` when the left operand is NaN. -/
lemma F.pcmp_nan_left (x : F) : F.pcmp F.nan x = none := by cases x <;> rfl

/-- `F.pcmp` is `none` when the right operand is NaN. -/
lemma F.pcmp_nan_right (x : F) : F.pcmp x F.nan = none := by cases x <;> rfl

/-! ## Claim theorems -/

/-- C2: `physical_to_velocity` maps both `Released` (speed 0, rudder NaN)
and `Zero` (speed 0, rudder 0) to the twist `(0, 0)`, and
`velocity_to_physical (0, 0)` is `Released`, not `Zero`. -/
theorem zero_twist_convention (m : ChassisModel) :
    m.physical_to_velocity Physical.RELEASED = ⟨0, 0⟩ ∧
    m.physical_to_velocity Physical.ZERO = ⟨0, 0⟩ ∧
    m.velocity_to_physical ⟨0, 0⟩ = Physical.RELEASED := by
  refine ⟨rfl, ?_, ?_⟩
  · simp [ChassisModel.physical_to_velocity, Physical.ZERO]
  · simp [ChassisModel.velocity_to_physical]

/-- C8: `step_limited` returns `current` unchanged exactly when the
`partial_cmp` of target against current is unordered, which happens iff
`current` or `target` is NaN. -/
theorem step_limited_nan (current step target : F) :
    (F.pcmp target current = none ↔ current = F.nan ∨ target = F.nan) ∧
    (current = F.nan ∨ target = F.nan → step_limited current step target = current) := by
  constructor
  · cases current <;> cases target <;> simp [F.pcmp]
  · rintro (h | h) <;> subst h
    · cases target <;> simp [step_limited, F.pcmp_nan_right, F.pcmp_nan_left]
    · cases current <;> simp [step_limited, F.pcmp_nan_left]

/-- Witness for C8 at a concrete input: a NaN current is returned
unchanged. -/
theorem step_limited_nan_witness :
    step_limited F.nan (F.val 1) (F.val 2) = F.nan :=
  (step_limited_nan F.nan (F.val 1) (F.val 2)).2 (Or.inl rfl)

/-- C5 counterexample: with a negative `speed_step` (constructible from a
negative acceleration) the claimed bound `|optimize_speed t c - c.speed| ≤
speed_step` fails: here the result moves by `1` while `speed_step = -1`. -/
theorem optimize_speed_bound_cex :
    ¬ |Optimizer.optimize_speed ⟨0, -1⟩ ⟨-5, F.nan⟩ ⟨0, F.val 0⟩ -
        (Physical.mk 0 (F.val 0)).speed| ≤ (Optimizer.mk 0 (-1)).speed_step := by
  have h : Optimizer.optimize_speed ⟨0, -1⟩ ⟨-5, F.nan⟩ ⟨0, F.val 0⟩ = 1 := by
    show (step_limited (F.val 0) (F.val (-1)) (F.val (-5))).toReal = 1
    rw [step_limited_val]
    norm_num [F.toReal]
  rw [h]
  norm_num

/-- C5 (amended): whenever the optimizer's `speed_step` is non-negative —
which `Optimizer::new` guarantees for non-negative acceleration and any
period — `optimize_speed` moves the current speed by at most `speed_step`. -/
theorem optimize_speed_bound (o : Optimizer) (t c : Physical)
    (h : 0 ≤ o.speed_step) :
    |o.optimize_speed t c - c.speed| ≤ o.speed_step := by
  unfold Optimizer.optimize_speed
  cases t.rudder <;> exact step_limited_val_bound _ _ _ h

/-- Witness for C5 (amended) at a concrete input. -/
theorem optimize_speed_bound_witness :
    (0 : ℝ) ≤ (Optimizer.mk 0 1).speed_step ∧
    |Optimizer.optimize_speed ⟨0, 1⟩ ⟨0, F.nan⟩ ⟨0, F.val 0⟩ -
        (Physical.mk 0 (F.val 0)).speed| ≤ (Optimizer.mk 0 1).speed_step :=
  ⟨by norm_num, optimize_speed_bound ⟨0, 1⟩ ⟨0, F.nan⟩ ⟨0, F.val 0⟩ (by norm_num)⟩

/-- C10: if `current.rudder` is NaN while `target.rudder` is not, the
rudder-mismatch factor `f32::max(0, 1 - diff/width)` is exactly `0`
(`f32::max` ignores the NaN operand), so the attenuated speed is `0` and
`optimize_speed` ramps the speed toward zero regardless of `target.speed`. -/
theorem optimize_speed_nan_current_rudder (o : Optimizer) (t c : Physical)
    (hc : c.rudder = F.nan) (ht : t.rudder ≠ F.nan) :
    o.optimize_speed t c =
      (step_limited (F.val c.speed) (F.val o.speed_step) (F.val 0)).toReal := by
  cases htr : t.rudder with
  | nan => exact absurd htr ht
  | val tr =>
    unfold Optimizer.optimize_speed
    rw [htr, hc]
    simp [F.sub, F.abs, F.div, F.max, F.toReal]

/-- Witness for C10 at a concrete input. -/
theorem optimize_speed_nan_current_rudder_witness :
    (Physical.mk 5 (F.val 0)).rudder ≠ F.nan ∧
    Optimizer.optimize_speed ⟨0, 1⟩ ⟨5, F.val 0⟩ ⟨2, F.nan⟩ =
      (step_limited (F.val 2) (F.val 1) (F.val 0)).toReal :=
  ⟨by simp, optimize_speed_nan_current_rudder ⟨0, 1⟩ ⟨5, F.val 0⟩ ⟨2, F.nan⟩ rfl (by simp)⟩

/-- C7: Odometry `+=` (adding `s` and `a`, composing poses in SE(2)) is
associative, `Odometry::ZERO` is a two-sided identity, and `s` and `a` are
non-decreasing when a record with non-negative `s` and `a` (the data-model
invariant) is accumulated. -/
theorem odometry_composition (a b c : Odometry) (hs : 0 ≤ b.s) (ha : 0 ≤ b.a) :
    (a.add b).add c = a.add (b.add c) ∧
    (a.add Odometry.ZERO = a ∧ Odometry.ZERO.add a = a) ∧
    (a.s ≤ (a.add b).s ∧ a.a ≤ (a.add b).a) := by
  obtain ⟨as1, aa1, ⟨at1, ar1⟩⟩ := a
  obtain ⟨bs1, ba1, ⟨bt1, br1⟩⟩ := b
  obtain ⟨cs1, ca1, ⟨ct1, cr1⟩⟩ := c
  refine ⟨?_, ⟨?_, ?_⟩, ?_, ?_⟩
  · simp only [Odometry.add, Iso2.mul, Odometry.mk.injEq, Iso2.mk.injEq]
    refine ⟨by ring, by ring, by ring, by ring⟩
  · simp [Odometry.add, Iso2.mul, Odometry.ZERO, Iso2.id]
  · simp [Odometry.add, Iso2.mul, Odometry.ZERO, Iso2.id]
  · simp only [Odometry.add]; linarith
  · simp only [Odometry.add]; linarith

/-- Witness for C7 at concrete records. -/
theorem odometry_composition_witness :
    (0 : ℝ) ≤ Odometry.ZERO.s ∧ (0 : ℝ) ≤ Odometry.ZERO.a ∧
    (Odometry.ZERO.add Odometry.ZERO = Odometry.ZERO ∧
      Odometry.ZERO.s ≤ (Odometry.ZERO.add Odometry.ZERO).s) :=
  ⟨le_refl 0, le_refl 0,
    (odometry_composition Odometry.ZERO Odometry.ZERO Odometry.ZERO
        (le_refl 0) (le_refl 0)).2.1.1,
    (odometry_composition Odometry.ZERO Odometry.ZERO Odometry.ZERO
        (le_refl 0) (le_refl 0)).2.2.1⟩

/-- C6 counterexample: for the already-integrated twist `(s, θ) = (1, 2⁻²⁴)`
the angle is below `f32::EPSILON = 2⁻²³`, yet the integrated record's
rotation is the unit complex of angle `θ`, not the claimed angle `0`: the
source passes `theta` to `Isometry2::new` in both branches. -/
theorem odometry_small_angle_cex :
    |(1 : ℝ) / 2 ^ 24| < f32_EPSILON ∧
    (Odometry.from_velocity ⟨1, 1 / 2 ^ 24⟩).pose.r ≠ (Iso2.new ⟨1, 0⟩ 0).r := by
  constructor
  · rw [abs_of_pos (by norm_num)]
    norm_num [f32_EPSILON]
  · intro h
    have him : Real.sin (1 / 2 ^ 24) = Real.sin 0 := by
      have := congrArg Complex.im h
      simpa [Odometry.from_velocity, Iso2.new] using this
    have hpos : (0 : ℝ) < Real.sin (1 / 2 ^ 24) :=
      Real.sin_pos_of_pos_of_lt_pi (by norm_num)
        (by linarith [Real.pi_gt_three])
    rw [Real.sin_zero] at him
    linarith

/-- C6 (amended): integrating the constant already-integrated twist
`(s, θ)` yields `Δs = |s|`, `Δa = |θ|`, rotation of angle `θ` in **both**
branches, and translation `(s, 0)` when `|θ| < f32::EPSILON`, else
`(s/θ·sin θ, s/θ·(1 − cos θ))`. -/
theorem odometry_from_velocity_spec (s θ : ℝ) :
    (Odometry.from_velocity ⟨s, θ⟩).s = |s| ∧
    (Odometry.from_velocity ⟨s, θ⟩).a = |θ| ∧
    (Odometry.from_velocity ⟨s, θ⟩).pose.r = ⟨Real.cos θ, Real.sin θ⟩ ∧
    (|θ| < f32_EPSILON → (Odometry.from_velocity ⟨s, θ⟩).pose.t = ⟨s, 0⟩) ∧
    (¬ |θ| < f32_EPSILON →
      (Odometry.from_velocity ⟨s, θ⟩).pose.t =
        ⟨s / θ * Real.sin θ, s / θ * (1 - Real.cos θ)⟩) := by
  refine ⟨rfl, rfl, rfl, ?_, ?_⟩
  · intro h
    simp only [Odometry.from_velocity, Iso2.new]
    rw [if_pos h]
  · intro h
    simp only [Odometry.from_velocity, Iso2.new]
    rw [if_neg h]
    apply Complex.ext <;>
      simp [Complex.mul_re, Complex.mul_im, Complex.ofReal_re, Complex.ofReal_im] <;>
      ring

/-- Witness for C6 (amended) at a concrete input. -/
theorem odometry_from_velocity_spec_witness :
    |(0 : ℝ)| < f32_EPSILON ∧ (Odometry.from_velocity ⟨1, 0⟩).pose.t = ⟨1, 0⟩ :=
  ⟨by norm_num [f32_EPSILON],
    (odometry_from_velocity_spec 1 0).2.2.2.1 (by norm_num [f32_EPSILON])⟩

/-- C9 counterexample: `new(1, 1/10, 1)` has all parameters positive, yet
`critical_rudder = atan2(1/100 − 1/2, 1/10) = arctan(−49/10) < 0`, outside
the claimed interval `(0, π/2)`. -/
theorem critical_rudder_range_cex :
    (0 : ℝ) < 1 ∧ (0 : ℝ) < 1 / 10 ∧
    ¬ 0 < (ChassisModel.new 1 (1 / 10) 1).critical_rudder := by
  refine ⟨one_pos, by norm_num, ?_⟩
  have h1 : (ChassisModel.new 1 (1 / 10) 1).critical_rudder =
      Real.arctan ((1 / 10 * (1 / 10) / 1 - 1 / 2) / (1 / 10)) := by
    simp only [ChassisModel.new, atan2]
    rw [if_pos (by norm_num : (0 : ℝ) < 1 / 10)]
  have h2 : ((1 : ℝ) / 10 * (1 / 10) / 1 - 1 / 2) / (1 / 10) < 0 := by norm_num
  have h3 : Real.arctan ((1 / 10 * (1 / 10) / 1 - 1 / 2) / (1 / 10)) <
      Real.arctan 0 := Real.arctan_strictMono h2
  rw [Real.arctan_zero] at h3
  rw [h1]
  linarith

/-- C9 (amended): for `new(width, length, wheel)` with positive parameters
satisfying `width/2 < length²/width` (equivalently `width² < 2·length²`,
true of the documented platform geometry), the derived
`critical_rudder = atan2(length²/width − width/2, length)` lies in
`(0, π/2)`. -/
theorem critical_rudder_range (width length wheel : ℝ)
    (hw : 0 < width) (hl : 0 < length) (hwh : 0 < wheel)
    (hgeom : width / 2 < length * length / width) :
    0 < (ChassisModel.new width length wheel).critical_rudder ∧
    (ChassisModel.new width length wheel).critical_rudder < π / 2 := by
  have h1 : (ChassisModel.new width length wheel).critical_rudder =
      Real.arctan ((length * length / width - width / 2) / length) := by
    simp only [ChassisModel.new, atan2]
    rw [if_pos hl]
  rw [h1]
  constructor
  · have h2 : (0 : ℝ) < (length * length / width - width / 2) / length :=
      div_pos (by linarith) hl
    have h3 := Real.arctan_strictMono h2
    rwa [Real.arctan_zero] at h3
  · exact Real.arctan_lt_pi_div_two _

/-- Witness for C9 (amended) on the documented test geometry
`(0.4, 0.3, 0.1)`. -/
theorem critical_rudder_range_witness :
    (0 : ℝ) < 2 / 5 ∧ (0 : ℝ) < 3 / 10 ∧ (0 : ℝ) < 1 / 10 ∧
    ((2 : ℝ) / 5) / 2 < (3 / 10 : ℝ) * (3 / 10) / (2 / 5) ∧
    0 < (ChassisModel.new (2 / 5) (3 / 10) (1 / 10)).critical_rudder :=
  ⟨by norm_num, by norm_num, by norm_num, by norm_num,
    (critical_rudder_range (2 / 5) (3 / 10) (1 / 10) (by norm_num) (by norm_num)
        (by norm_num) (by norm_num)).1⟩

/-- C3: one `StatusPredictor` step returns no value exactly when the target
is released and the current command is static; otherwise, when current
differs from target it rebuilds `current` from `optimize_speed` and the
rudder `step_limited`, and in every non-terminating case it returns the
(possibly unchanged) current. -/
theorem status_predictor_step (s : StatusPredictor) :
    (s.target.is_released ∧ s.current.is_static → s.next = none) ∧
    (¬ (s.target.is_released ∧ s.current.is_static) →
      (¬ Physical.req s.current s.target →
        s.next = some
          (⟨s.optimizer.optimize_speed s.target s.current,
            step_limited s.current.rudder (F.val s.rudder_step) s.target.rudder⟩,
           { s with current :=
              ⟨s.optimizer.optimize_speed s.target s.current,
               step_limited s.current.rudder (F.val s.rudder_step) s.target.rudder⟩ })) ∧
      (Physical.req s.current s.target → s.next = some (s.current, s))) := by
  refine ⟨fun h => ?_, fun hterm => ⟨fun hreq => ?_, fun hreq => ?_⟩⟩
  · unfold StatusPredictor.next
    rw [if_pos h]
  · unfold StatusPredictor.next
    rw [if_neg hterm]
    simp only [if_pos hreq]
  · unfold StatusPredictor.next
    rw [if_neg hterm]
    simp only [if_neg (not_not_intro hreq)]

/-- Witness for C3: the freshly constructed predictor (current `Zero`,
target `Released`) terminates on its first step. -/
theorem status_predictor_step_witness :
    ((StatusPredictor.new ⟨0, 1⟩ 1).target.is_released ∧
      (StatusPredictor.new ⟨0, 1⟩ 1).current.is_static) ∧
    (StatusPredictor.new ⟨0, 1⟩ 1).next = none :=
  ⟨⟨trivial, rfl⟩, (status_predictor_step (StatusPredictor.new ⟨0, 1⟩ 1)).1 ⟨trivial, rfl⟩⟩

/-- A command never equals a target whose rudder is NaN (NaN is IEEE-equal
to nothing), so a released target always forces the update branch. -/
lemma not_req_of_target_released (c t : Physical) (ht : t.rudder = F.nan) :
    ¬ Physical.req c t := by
  rintro ⟨-, h⟩
  rw [ht] at h
  cases hc : c.rudder <;> rw [hc] at h <;> simp [F.feq] at h

/-- `step_limited` toward a NaN target returns `current`. -/
lemma step_limited_nan_target (x y : F) : step_limited x y F.nan = x := by
  unfold step_limited
  rw [F.pcmp_nan_left]

/-- The step of the predictor under a released target and a non-static
current: speed ramps toward `0`, rudder is unchanged. -/
lemma next_target_released (s : StatusPredictor) (ht : s.target = Physical.RELEASED)
    (h0 : s.current.speed ≠ 0) :
    s.next = some
      (⟨(step_limited (F.val s.current.speed) (F.val s.optimizer.speed_step)
            (F.val 0)).toReal, s.current.rudder⟩,
       { s with current :=
          ⟨(step_limited (F.val s.current.speed) (F.val s.optimizer.speed_step)
              (F.val 0)).toReal, s.current.rudder⟩ }) := by
  have hterm : ¬ (s.target.is_released ∧ s.current.is_static) := fun h => h0 h.2
  have hreq : ¬ Physical.req s.current s.target :=
    not_req_of_target_released s.current s.target (by rw [ht]; rfl)
  have hsp : s.optimizer.optimize_speed s.target s.current =
      (step_limited (F.val s.current.speed) (F.val s.optimizer.speed_step)
        (F.val 0)).toReal := by
    rw [ht]
    rfl
  have hrd : step_limited s.current.rudder (F.val s.rudder_step) s.target.rudder =
      s.current.rudder := by
    rw [ht]
    exact step_limited_nan_target _ _
  unfold StatusPredictor.next
  rw [if_neg hterm]
  simp only [if_pos hreq, hsp, hrd]

/-- Termination when the target is released: the predictor terminates
within `n + 1` steps once `|current speed| ≤ n · speed_step`. -/
lemma advance_released (n : ℕ) : ∀ s : StatusPredictor,
    s.target = Physical.RELEASED → 0 < s.optimizer.speed_step →
    |s.current.speed| ≤ n * s.optimizer.speed_step →
    s.advance (n + 1) = none := by
  induction n with
  | zero =>
    intro s ht hd hb
    have h0 : s.current.speed = 0 := by
      have hz : |s.current.speed| = 0 :=
        le_antisymm (by simpa using hb) (abs_nonneg _)
      exact abs_eq_zero.mp hz
    have hnext : s.next = none := by
      unfold StatusPredictor.next
      rw [if_pos ⟨by rw [ht]; trivial, h0⟩]
    simp [StatusPredictor.advance, hnext]
  | succ n ih =>
    intro s ht hd hb
    by_cases h0 : s.current.speed = 0
    · have hnext : s.next = none := by
        unfold StatusPredictor.next
        rw [if_pos ⟨by rw [ht]; trivial, h0⟩]
      simp [StatusPredictor.advance, hnext]
    · have hnext := next_target_released s ht h0
      have hstep : s.advance (n + 1 + 1) =
          StatusPredictor.advance (n + 1)
            { s with current :=
                ⟨(step_limited (F.val s.current.speed) (F.val s.optimizer.speed_step)
                    (F.val 0)).toReal, s.current.rudder⟩ } := by
        simp only [StatusPredictor.advance, hnext]
      rw [hstep]
      apply ih
      · exact ht
      · exact hd
      · have hbound := step_limited_to_zero s.current.speed s.optimizer.speed_step
        have hmax : Max.max (|s.current.speed| - s.optimizer.speed_step) 0 ≤
            n * s.optimizer.speed_step := by
          have hnd : (0 : ℝ) ≤ n * s.optimizer.speed_step :=
            mul_nonneg (Nat.cast_nonneg n) hd.le
          have hcast : ((n : ℝ) + 1) * s.optimizer.speed_step =
              n * s.optimizer.speed_step + s.optimizer.speed_step := by ring
          have hb' : |s.current.speed| ≤ (n : ℝ) * s.optimizer.speed_step +
              s.optimizer.speed_step := by
            rw [← hcast]
            calc |s.current.speed| ≤ ((n : ℕ) + 1 : ℕ) * s.optimizer.speed_step := hb
            _ = ((n : ℝ) + 1) * s.optimizer.speed_step := by push_cast; ring
          exact max_le (by linarith) hnd
        exact le_trans hbound hmax

/-- C4: if the predictor's target is `Released` and the optimizer's
`speed_step` is strictly positive, the predictor yields `none` after
finitely many calls from any current state. -/
theorem status_predictor_terminates (s : StatusPredictor)
    (ht : s.target = Physical.RELEASED) (hd : 0 < s.optimizer.speed_step) :
    ∃ n, s.advance n = none := by
  obtain ⟨n, hn⟩ := exists_nat_ge (|s.current.speed| / s.optimizer.speed_step)
  refine ⟨n + 1, advance_released n s ht hd ?_⟩
  rw [div_le_iff₀ hd] at hn
  linarith [hn]

/-- Witness for C4 at a concrete predictor: current speed `2`, step `1`. -/
theorem status_predictor_terminates_witness :
    (0 : ℝ) < (Optimizer.mk 0 1).speed_step ∧
    ∃ n, (StatusPredictor.mk 1 ⟨0, 1⟩ ⟨2, F.val 0⟩ Physical.RELEASED).advance n = none :=
  ⟨by norm_num,
    status_predictor_terminates (StatusPredictor.mk 1 ⟨0, 1⟩ ⟨2, F.val 0⟩ Physical.RELEASED)
      rfl (by norm_num)⟩

/-- Unfolding of `physical_to_velocity` for an active (non-zero, non-NaN)
rudder. -/
lemma physical_to_velocity_val (m : ChassisModel) (sp r : ℝ) (hr0 : r ≠ 0) :
    m.physical_to_velocity ⟨sp, F.val r⟩ =
      { v := (if m.critical_rudder < |r| then sp / (-m.length / Real.sin r)
              else if 0 < r then sp / (-m.length / Real.tan r - m.width / 2)
              else sp / (-m.length / Real.tan r + m.width / 2)) *
             (-m.length / Real.tan r),
        w := if m.critical_rudder < |r| then sp / (-m.length / Real.sin r)
             else if 0 < r then sp / (-m.length / Real.tan r - m.width / 2)
             else sp / (-m.length / Real.tan r + m.width / 2) } := by
  simp only [ChassisModel.physical_to_velocity]
  rw [if_neg hr0]

/-- Unfolding of `velocity_to_physical` for a non-zero angular speed. -/
lemma velocity_to_physical_val (m : ChassisModel) (v w : ℝ) (hw : w ≠ 0) :
    m.velocity_to_physical ⟨v, w⟩ =
      { speed := w *
          (if m.critical_rudder < abs (atan2 (fsignum (v / w) * -m.length) |v / w|)
           then -m.length / Real.sin (atan2 (fsignum (v / w) * -m.length) |v / w|)
           else if 0 < atan2 (fsignum (v / w) * -m.length) |v / w|
           then v / w - m.width / 2
           else v / w + m.width / 2),
        rudder := F.val (atan2 (fsignum (v / w) * -m.length) |v / w|) } := by
  simp only [ChassisModel.velocity_to_physical]
  rw [if_neg hw]

/-- The wheel-speed conversions are mutually inverse linear maps. -/
lemma wheels_velocity_round (m : ChassisModel) (hw : m.width ≠ 0) (hwh : m.wheel ≠ 0)
    (vel : Velocity) : m.wheels_to_velocity (m.velocity_to_wheels vel) = vel := by
  obtain ⟨v, w⟩ := vel
  simp only [ChassisModel.wheels_to_velocity, ChassisModel.velocity_to_wheels,
    Velocity.mk.injEq]
  constructor
  · field_simp
    ring
  · field_simp
    ring

/-- `atan2` with a positive abscissa is a plain `arctan`. -/
lemma atan2_pos_x (y x : ℝ) (hx : 0 < x) : atan2 y x = Real.arctan (y / x) := by
  unfold atan2
  rw [if_pos hx]

/-- The quadrant trick of the source: `signum(z)·c / |z| = c / z`. -/
lemma fsignum_mul_div_abs (z c : ℝ) (hz : z ≠ 0) : fsignum z * c / |z| = c / z := by
  rcases hz.lt_or_lt with h | h
  · rw [fsignum, if_pos h, abs_of_neg h, neg_one_mul, neg_div_neg_eq]
  · rw [fsignum, if_neg (not_lt.mpr h.le), abs_of_pos h, one_mul]

/-- The velocity round trip for an active command: the exact-real core of
the C1 claim. -/
lemma velocity_round_trip (m : ChassisModel) (hw : 0 < m.width) (hl : 0 < m.length)
    (sp r : ℝ) (hs : sp ≠ 0) (hr1 : -(π / 2) < r) (hr2 : r < π / 2) :
    m.velocity_to_physical (m.physical_to_velocity ⟨sp, F.val r⟩) = ⟨sp, F.val r⟩ := by
  rcases eq_or_ne r 0 with hr0 | hr0
  · subst hr0
    simp [ChassisModel.physical_to_velocity, ChassisModel.velocity_to_physical, hs]
  · have hcos : 0 < Real.cos r := Real.cos_pos_of_mem_Ioo ⟨hr1, hr2⟩
    have hsin : Real.sin r ≠ 0 := fun h =>
      hr0 ((Real.sin_eq_zero_iff_of_lt_of_lt
        (by linarith [Real.pi_pos]) (by linarith [Real.pi_pos])).mp h)
    have htanne : Real.tan r ≠ 0 := by
      rw [Real.tan_eq_sin_div_cos]
      exact div_ne_zero hsin hcos.ne'
    have hLne : -m.length ≠ 0 := neg_ne_zero.mpr hl.ne'
    have hrcne : -m.length / Real.tan r ≠ 0 := div_ne_zero hLne htanne
    rw [physical_to_velocity_val m sp r hr0]
    set rc := -m.length / Real.tan r with hrc
    set D : ℝ := (if m.critical_rudder < |r| then -m.length / Real.sin r
        else if 0 < r then rc - m.width / 2
        else rc + m.width / 2) with hD
    have hwD : (if m.critical_rudder < |r| then sp / (-m.length / Real.sin r)
        else if 0 < r then sp / (rc - m.width / 2)
        else sp / (rc + m.width / 2)) = sp / D := by
      rw [hD]
      split_ifs <;> rfl
    rw [hwD]
    have hDne : D ≠ 0 := by
      rw [hD]
      split_ifs with h1 h2
      · exact div_ne_zero hLne hsin
      · have htpos : 0 < Real.tan r := Real.tan_pos_of_pos_of_lt_pi_div_two h2 hr2
        have hrcneg : rc < 0 := by
          rw [hrc]
          exact div_neg_of_neg_of_pos (neg_lt_zero.mpr hl) htpos
        exact ne_of_lt (by linarith)
      · have hrneg : r < 0 := lt_of_le_of_ne (not_lt.mp h2) hr0
        have htneg : Real.tan r < 0 := Real.tan_neg_of_neg_of_pi_div_two_lt hrneg hr1
        have hrcpos : 0 < rc := by
          rw [hrc]
          exact div_pos_of_neg_of_neg (neg_lt_zero.mpr hl) htneg
        exact ne_of_gt (by linarith)
    have hwne : sp / D ≠ 0 := div_ne_zero hs hDne
    rw [velocity_to_physical_val m (sp / D * rc) (sp / D) hwne]
    have hvw : sp / D * rc / (sp / D) = rc := mul_div_cancel_left₀ rc hwne
    rw [hvw]
    have hrud : atan2 (fsignum rc * -m.length) |rc| = r := by
      rw [atan2_pos_x _ _ (abs_pos.mpr hrcne)]
      rw [fsignum_mul_div_abs rc (-m.length) hrcne]
      have h3 : -m.length / rc = Real.tan r := by
        rw [hrc, div_div_eq_mul_div, mul_comm, mul_div_assoc, div_self hLne, mul_one]
      rw [h3, Real.arctan_tan hr1 hr2]
    rw [hrud, ← hD, div_mul_cancel₀ sp hDne]

/-- C1: for an active command (`speed ≠ 0`, `rudder ∈ (−π/2, π/2)`) on a
chassis with positive geometry, both the twist round trip
`velocity_to_physical ∘ physical_to_velocity` and the wheel round trip
`wheels_to_physical ∘ physical_to_wheels` reproduce the command exactly
(the exact-real idealisation of "within float epsilon"). -/
theorem chassis_round_trip (m : ChassisModel) (hw : 0 < m.width) (hl : 0 < m.length)
    (hwh : 0 < m.wheel) (sp r : ℝ) (hs : sp ≠ 0) (hr1 : -(π / 2) < r)
    (hr2 : r < π / 2) :
    m.velocity_to_physical (m.physical_to_velocity ⟨sp, F.val r⟩) = ⟨sp, F.val r⟩ ∧
    m.wheels_to_physical (m.physical_to_wheels ⟨sp, F.val r⟩) = ⟨sp, F.val r⟩ := by
  refine ⟨velocity_round_trip m hw hl sp r hs hr1 hr2, ?_⟩
  unfold ChassisModel.wheels_to_physical ChassisModel.physical_to_wheels
  rw [wheels_velocity_round m hw.ne' hwh.ne']
  exact velocity_round_trip m hw hl sp r hs hr1 hr2

/-- Witness for C1 on the documented test geometry at a concrete command. -/
theorem chassis_round_trip_witness :
    (1 : ℝ) ≠ 0 ∧ -(π / 2) < (0 : ℝ) ∧ (0 : ℝ) < π / 2 ∧
    ((ChassisModel.mk (2 / 5) (3 / 10) (1 / 10) 0).velocity_to_physical
        ((ChassisModel.mk (2 / 5) (3 / 10) (1 / 10) 0).physical_to_velocity
          ⟨1, F.val 0⟩) = ⟨1, F.val 0⟩ ∧
      (ChassisModel.mk (2 / 5) (3 / 10) (1 / 10) 0).wheels_to_physical
        ((ChassisModel.mk (2 / 5) (3 / 10) (1 / 10) 0).physical_to_wheels
          ⟨1, F.val 0⟩) = ⟨1, F.val 0⟩) :=
  ⟨by norm_num, neg_lt_zero.mpr (by positivity), by positivity,
    chassis_round_trip (ChassisModel.mk (2 / 5) (3 / 10) (1 / 10) 0)
      (by norm_num) (by norm_num) (by norm_num) 1 0 (by norm_num)
      (neg_lt_zero.mpr (by positivity)) (by positivity)⟩

end PM1
